import Mathlib

set_option maxHeartbeats 1000000

/- Verification development for OTM_v1.1.py (Onboarding Template Maker).
   Python strings are modeled as List Char.  Python bytes objects are modeled
   as List Char whose elements are code points below 256 (one Char per byte).
   Case mappings use Lean core Char.toUpper and Char.toLower, which perform the
   ASCII mapping; Python str.capitalize and str.lower agree with this on ASCII
   input, which is the range exercised by every claim. -/

abbrev PyStr := List Char

def strB (s : String) : PyStr := s.data

/- Python str.split() and str.strip() treat these six ASCII characters as
   whitespace (ignoring the wider Unicode whitespace classes, which no claim
   exercises). -/
def pyIsSpace (c : Char) : Bool :=
  c = ' ' || c = '\t' || c = '\n' || c = '\r' || c = '\x0b' || c = '\x0c'

/- Python str.strip() with no argument: drop leading and trailing whitespace. -/
def pyStrip (s : PyStr) : PyStr :=
  ((s.dropWhile pyIsSpace).reverse.dropWhile pyIsSpace).reverse

/- Python str.split() with no argument: split on runs of whitespace, never
   producing empty tokens. -/
def pySplitAux : PyStr → PyStr → List PyStr
  | [], cur => if cur = [] then [] else [cur]
  | c :: t, cur =>
    if pyIsSpace c then
      if cur = [] then pySplitAux t [] else cur :: pySplitAux t []
    else pySplitAux t (cur ++ [c])

def pySplit (s : PyStr) : List PyStr := pySplitAux s []

/- Python str.capitalize(): first character uppercased, all remaining
   characters lowercased. -/
def pyCapitalize : PyStr → PyStr
  | [] => []
  | c :: t => Char.toUpper c :: t.map Char.toLower

/- Source: make_username (OTM_v1.1.py lines 69-73).
   parts = [p for p in full_name.strip().split() if p]
   return ".".join([p.capitalize() for p in parts]) if parts else "" -/
def make_username (full_name : PyStr) : PyStr :=
  let parts := (pySplit (pyStrip full_name)).filter (fun p => p ≠ [])
  if parts ≠ [] then List.intercalate (strB ".") (parts.map pyCapitalize) else []

/- Modelled from the words of claim C5 for comparison with make_username:
   the dot-join of the whitespace-separated tokens of the trimmed full_name
   with each token initial capitalized (and, reading the claim literally,
   the rest of each token left unchanged). -/
def capInitial : PyStr → PyStr
  | [] => []
  | c :: cs => Char.toUpper c :: cs

def derive_username_claim (full_name : PyStr) : PyStr :=
  List.intercalate (strB ".") ((pySplit (pyStrip full_name)).map capInitial)

/- ----------------------------------------------------------------------
   Data model: the seven-column record schema (OTM_v1.1.py lines 20-24).
   ---------------------------------------------------------------------- -/

def DEFAULT_DB : PyStr := strB "onboarding_db.csv"

def FIELDS : List PyStr :=
  [strB "full_name", strB "username", strB "password", strB "pc_name",
   strB "ext", strB "ddi", strB "email"]

structure Record where
  full_name : PyStr
  username : PyStr
  password : PyStr
  pc_name : PyStr
  ext : PyStr
  ddi : PyStr
  email : PyStr
deriving DecidableEq

def recordFields (r : Record) : List PyStr :=
  [r.full_name, r.username, r.password, r.pc_name, r.ext, r.ddi, r.email]

/- ----------------------------------------------------------------------
   Configuration loading (OTM_v1.1.py lines 27-46).
   ---------------------------------------------------------------------- -/

/- Value found under the db_path key of the parsed settings JSON: a string,
   or some non-string JSON value (whose only relevant property is Python
   truthiness, since Path() raises TypeError on it). -/
inductive ConfigValue
  | str (s : PyStr)
  | nonStr (truthy : Bool)

/- Observable state of the settings store when load_config runs. -/
inductive ConfigStore
  | absent
  | unreadable
  | invalidJson
  | parsed (db_path : Option ConfigValue)

/- Source: load_config, returning the value of the DB_FILE global after the
   call; DB_FILE = DEFAULT_DB beforehand (line 22).  pathExists models
   p.exists() for the configured path; both branches of that test assign the
   configured path.  Read errors, JSON errors and Path(p) type errors all land
   in the except branch, which assigns DEFAULT_DB; an absent or falsy db_path
   value leaves DB_FILE untouched. -/
def load_config (store : ConfigStore) (pathExists : PyStr → Bool) : PyStr :=
  match store with
  | .absent => DEFAULT_DB
  | .unreadable => DEFAULT_DB
  | .invalidJson => DEFAULT_DB
  | .parsed none => DEFAULT_DB
  | .parsed (some (.str p)) =>
    if p = [] then DEFAULT_DB
    else if pathExists p then p else p
  | .parsed (some (.nonStr truthy)) =>
    if truthy then DEFAULT_DB else DEFAULT_DB

/- ----------------------------------------------------------------------
   CSV encoding and decoding (csv module, default dialect: comma delimiter,
   double-quote quotechar, doublequote on, QUOTE_MINIMAL, CRLF terminator).
   ---------------------------------------------------------------------- -/

/- QUOTE_MINIMAL: a field is quoted exactly when it contains the delimiter,
   the quote character, or a line-terminator character. -/
def csvNeedsQuote (f : PyStr) : Bool :=
  f.any (fun c => c = ',' || c = '"' || c = '\r' || c = '\n')

def csvEscapeQuotes : PyStr → PyStr
  | [] => []
  | c :: t => if c = '"' then '"' :: '"' :: csvEscapeQuotes t else c :: csvEscapeQuotes t

def csvEncodeField (f : PyStr) : PyStr :=
  if csvNeedsQuote f then '"' :: (csvEscapeQuotes f ++ ['"']) else f

def csvEncodeRow (row : List PyStr) : PyStr :=
  List.intercalate (strB ",") (row.map csvEncodeField) ++ strB "\r\n"

/- Reader modes of the csv parser state machine. -/
inductive CsvMode
  | startRecord
  | startField
  | inUnquoted
  | inQuoted
  | quoteInQuoted
  | eatCrlf
deriving DecidableEq

structure CsvState where
  mode : CsvMode
  field : PyStr
  row : List PyStr
  rows : List (List PyStr)
deriving DecidableEq

def csvSaveField (st : CsvState) : CsvState :=
  { st with field := [], row := st.row ++ [st.field] }

def csvSaveRow (st : CsvState) : CsvState :=
  { st with row := [], rows := st.rows ++ [st.row] }

/- Character-level model of csv.reader on a text file opened with newline
   disabled: universal line splitting makes a bare CR, a bare LF or CRLF all
   terminate a record, a blank line produces an empty record, a quote
   character inside an unquoted field is ordinary data, and after a closing
   quote a regular character reverts to unquoted-field mode (the non-strict
   default dialect). -/
def csvStep (st : CsvState) (c : Char) : CsvState :=
  match st.mode with
  | .startRecord =>
    if c = '\n' then csvSaveRow st
    else if c = '\r' then { csvSaveRow st with mode := .eatCrlf }
    else if c = '"' then { st with mode := .inQuoted }
    else if c = ',' then { csvSaveField st with mode := .startField }
    else { st with mode := .inUnquoted, field := st.field ++ [c] }
  | .startField =>
    if c = '\n' then { csvSaveRow (csvSaveField st) with mode := .startRecord }
    else if c = '\r' then { csvSaveRow (csvSaveField st) with mode := .eatCrlf }
    else if c = '"' then { st with mode := .inQuoted }
    else if c = ',' then csvSaveField st
    else { st with mode := .inUnquoted, field := st.field ++ [c] }
  | .inUnquoted =>
    if c = '\n' then { csvSaveRow (csvSaveField st) with mode := .startRecord }
    else if c = '\r' then { csvSaveRow (csvSaveField st) with mode := .eatCrlf }
    else if c = ',' then { csvSaveField st with mode := .startField }
    else { st with field := st.field ++ [c] }
  | .inQuoted =>
    if c = '"' then { st with mode := .quoteInQuoted }
    else { st with field := st.field ++ [c] }
  | .quoteInQuoted =>
    if c = '"' then { st with mode := .inQuoted, field := st.field ++ [c] }
    else if c = ',' then { csvSaveField st with mode := .startField }
    else if c = '\n' then { csvSaveRow (csvSaveField st) with mode := .startRecord }
    else if c = '\r' then { csvSaveRow (csvSaveField st) with mode := .eatCrlf }
    else { st with mode := .inUnquoted, field := st.field ++ [c] }
  | .eatCrlf =>
    if c = '\n' then { st with mode := .startRecord }
    else if c = '\r' then csvSaveRow st
    else if c = '"' then { st with mode := .inQuoted }
    else if c = ',' then { csvSaveField st with mode := .startField }
    else { st with mode := .inUnquoted, field := st.field ++ [c] }

def csvFinish (st : CsvState) : List (List PyStr) :=
  match st.mode with
  | .startRecord => st.rows
  | .eatCrlf => st.rows
  | _ => (csvSaveRow (csvSaveField st)).rows

def csvInit : CsvState := ⟨.startRecord, [], [], []⟩

def csvParse (s : PyStr) : List (List PyStr) :=
  csvFinish (s.foldl csvStep csvInit)

/- ----------------------------------------------------------------------
   Python dicts with string keys (values: a string or None), as produced by
   csv.DictReader.
   ---------------------------------------------------------------------- -/

abbrev PyVal := Option PyStr
abbrev PyDict := List (PyStr × PyVal)

/- dict insertion: an existing key is updated in place, a new key is appended
   (Python dicts preserve first-insertion order). -/
def dictInsert : PyDict → PyStr → PyVal → PyDict
  | [], k, v => [(k, v)]
  | (k0, v0) :: t, k, v =>
    if k0 = k then (k0, v) :: t else (k0, v0) :: dictInsert t k v

def dictOfPairs (ps : List (PyStr × PyVal)) : PyDict :=
  ps.foldl (fun d kv => dictInsert d kv.1 kv.2) []

def dictLookup : PyDict → PyStr → Option PyVal
  | [], _ => none
  | (k0, v0) :: t, k => if k0 = k then some v0 else dictLookup t k

/- Python dict.get(key, default). -/
def dictGet (d : PyDict) (k : PyStr) (default : PyVal) : PyVal :=
  match dictLookup d k with
  | some v => v
  | none => default

/- csv.DictReader row construction: columns are matched to header names by
   position; a row shorter than the header leaves the remaining columns at the
   restval default None; values beyond the header length would be collected
   under the non-string restkey None, which cannot be a schema column and is
   therefore not represented. -/
def dictReaderRow (fieldnames row : List PyStr) : PyDict :=
  let vals : List PyVal :=
    (row.take fieldnames.length).map some ++
      List.replicate (fieldnames.length - row.length) none
  dictOfPairs (fieldnames.zip vals)

/- Source: load_records (lines 79-82) = list(csv.DictReader(f)), modeled on
   the file content.  The first parsed row (even an empty one) provides the
   fieldnames; DictReader skips blank data rows. -/
def load_records (content : PyStr) : List PyDict :=
  match csvParse content with
  | [] => []
  | header :: rest => (rest.filter (fun r => r ≠ [])).map (dictReaderRow header)

def recordToDict (r : Record) : PyDict :=
  [(strB "full_name", some r.full_name), (strB "username", some r.username),
   (strB "password", some r.password), (strB "pc_name", some r.pc_name),
   (strB "ext", some r.ext), (strB "ddi", some r.ddi), (strB "email", some r.email)]

/- Source: save_records (lines 84-99), the bytes written to the temp file and
   then moved over the target: DictWriter.writeheader then writer.writerows,
   one encoded row per record in FIELDS order. -/
def save_records_content (records : List Record) : PyStr :=
  csvEncodeRow FIELDS ++ (records.map (fun r => csvEncodeRow (recordFields r))).flatten

/- ----------------------------------------------------------------------
   File-system model for ensure_db / save_records (claims C1, C6).
   ---------------------------------------------------------------------- -/

def FileSys := PyStr → Option PyStr

def fsSet (fs : FileSys) (p : PyStr) (content : PyStr) : FileSys :=
  fun q => if q = p then some content else fs q

/- pathlib.PurePath.with_suffix for POSIX-style path strings: the suffix of
   the final path component is the part from its last dot, provided that dot
   is neither the first nor the last character of the component; with_suffix
   removes it (when present) and appends the new suffix. -/
def pyWithSuffix (p : PyStr) (newSuffix : PyStr) : PyStr :=
  let dir := (p.reverse.dropWhile (fun c => c ≠ '/')).reverse
  let name := (p.reverse.takeWhile (fun c => c ≠ '/')).reverse
  let stem :=
    match List.findIdx? (fun c => c = '.') name.reverse with
    | none => name
    | some j =>
      let i := name.length - 1 - j
      if 0 < i ∧ i < name.length - 1 then name.take i else name
  dir ++ stem ++ newSuffix

/- Source: ensure_db (lines 58-63): when the path has no file yet, write a
   header-only file with the seven-column schema. -/
def ensure_db (fs : FileSys) (path : PyStr) : FileSys :=
  match fs path with
  | some _ => fs
  | none => fsSet fs path (csvEncodeRow FIELDS)

/- Source: save_records (lines 84-99), a run whose temp-file write step fails
   midway (claim C6): after ensure_db, the temp sibling DB_FILE.with_suffix
   of tmp is opened for writing, which truncates it, writtenSoFar bytes are
   written, and the write then raises; the exception propagates before
   os.replace runs, so neither the rename nor the fallback rewrite happens. -/
def save_records_fail_mid (fs : FileSys) (dbPath writtenSoFar : PyStr) : FileSys :=
  let fs1 := ensure_db fs dbPath
  let tmp := pyWithSuffix dbPath (strB ".tmp")
  fsSet fs1 tmp writtenSoFar

/- ----------------------------------------------------------------------
   Form entry points save_new / update_record (lines 500-557, claim C10).
   ---------------------------------------------------------------------- -/

/- The five form entry values read by save_new and update_record. -/
structure FormInput where
  full : PyStr
  pc : PyStr
  pw : PyStr
  ext : PyStr
  ddi : PyStr

def EMAIL_DOMAIN : PyStr := strB "@totalassist.co.uk"

/- Source: save_new (lines 500-524), modeled on the record list: none when
   validation fails (a warning is shown and nothing is saved), otherwise the
   list passed to save_records, with the new record inserted at index 0. -/
def save_new (form : FormInput) (recs : List Record) : Option (List Record) :=
  let full := pyStrip form.full
  let pc := pyStrip form.pc
  let pw := pyStrip form.pw
  let ext := pyStrip form.ext
  let ddi := pyStrip form.ddi
  if full = [] ∨ pc = [] ∨ pw = [] then none
  else
    let username := make_username full
    let r : Record := ⟨full, username, pw, pc, ext, ddi, username ++ EMAIL_DOMAIN⟩
    some (r :: recs)

/- Source: update_record (lines 527-557): with no selection, an out-of-range
   index, or failed validation nothing is saved; otherwise the list passed to
   save_records has the record at current_index replaced. -/
def update_record (form : FormInput) (recs : List Record)
    (current_index : Option Nat) : Option (List Record) :=
  match current_index with
  | none => none
  | some idx =>
    let full := pyStrip form.full
    let pc := pyStrip form.pc
    let pw := pyStrip form.pw
    let ext := pyStrip form.ext
    let ddi := pyStrip form.ddi
    if full = [] ∨ pc = [] ∨ pw = [] then none
    else
      let username := make_username full
      let r : Record := ⟨full, username, pw, pc, ext, ddi, username ++ EMAIL_DOMAIN⟩
      if idx < recs.length then some (recs.set idx r) else none

/- The persisted-record invariant of claim C10. -/
def record_invariant (r : Record) : Prop :=
  pyStrip r.full_name ≠ [] ∧ pyStrip r.pc_name ≠ [] ∧ pyStrip r.password ≠ [] ∧
  r.username = make_username r.full_name ∧
  r.email = r.username ++ EMAIL_DOMAIN

/- ----------------------------------------------------------------------
   Clipboard transaction traces (lines 140-208, claim C8).
   ---------------------------------------------------------------------- -/

inductive ClipEvent
  | openClipboard (ok : Bool)
  | emptyClipboard (ok : Bool)
  | registerFormat
  | globalAlloc (ok : Bool)
  | globalLock (ok : Bool)
  | setClipboardData (ok : Bool)
  | globalUnlock
  | globalFree
  | closeClipboard
  | tkClear
  | tkAppend
deriving DecidableEq

/- Success or failure of each raw Win32 call made by
   _set_clipboard_html_win32, injected as an oracle. -/
structure Win32Api where
  openOk : Bool
  emptyOk : Bool
  allocHtmlOk : Bool
  lockHtmlOk : Bool
  setHtmlOk : Bool
  allocTxtOk : Bool
  lockTxtOk : Bool
  setTxtOk : Bool

def htmlPayloadOkEvents : List ClipEvent :=
  [.emptyClipboard true, .globalAlloc true, .globalLock true, .globalUnlock,
   .setClipboardData true]

/- Events of the try block body of _set_clipboard_html_win32 (lines 152-179)
   and whether it completes without raising. -/
def populateSteps (api : Win32Api) : Bool × List ClipEvent :=
  if !api.emptyOk then (false, [.emptyClipboard false])
  else if !api.allocHtmlOk then (false, [.emptyClipboard true, .globalAlloc false])
  else if !api.lockHtmlOk then
    (false, [.emptyClipboard true, .globalAlloc true, .globalLock false, .globalFree])
  else if !api.setHtmlOk then
    (false, [.emptyClipboard true, .globalAlloc true, .globalLock true, .globalUnlock,
             .setClipboardData false, .globalFree])
  else if !api.allocTxtOk then (false, htmlPayloadOkEvents ++ [.globalAlloc false])
  else if !api.lockTxtOk then
    (false, htmlPayloadOkEvents ++ [.globalAlloc true, .globalLock false, .globalFree])
  else if !api.setTxtOk then
    (false, htmlPayloadOkEvents ++ [.globalAlloc true, .globalLock true, .globalUnlock,
             .setClipboardData false, .globalFree])
  else (true, htmlPayloadOkEvents ++ [.globalAlloc true, .globalLock true, .globalUnlock,
              .setClipboardData true])

/- Source: _set_clipboard_html_win32 (lines 140-181): RegisterClipboardFormatW,
   then OpenClipboard; once it succeeds the populate steps run inside a try
   block whose finally clause always calls CloseClipboard.  The boolean result
   records whether the call returns normally (true) or raises (false). -/
def setClipboardHtmlWin32 (api : Win32Api) : Bool × List ClipEvent :=
  if !api.openOk then (false, [.registerFormat, .openClipboard false])
  else
    let r := populateSteps api
    (r.1, .registerFormat :: .openClipboard true :: (r.2 ++ [.closeClipboard]))

/- Success or failure of the pywin32 calls made by the first branch of
   set_html_clipboard_fragment; available models whether import win32clipboard
   succeeds. -/
structure Pywin32Api where
  available : Bool
  openOk : Bool
  emptyOk : Bool
  setHtmlOk : Bool
  setTxtOk : Bool

/- Events of the pywin32 attempt (lines 186-196) and whether it returns.
   pywin32 raises on failing calls; there is no try/finally here, so a raise
   after OpenClipboard leaves the clipboard open. -/
def pywin32Attempt (p : Pywin32Api) : Bool × List ClipEvent :=
  if !p.openOk then (false, [.openClipboard false])
  else if !p.emptyOk then (false, [.openClipboard true, .emptyClipboard false])
  else if !p.setHtmlOk then
    (false, [.openClipboard true, .emptyClipboard true, .registerFormat,
             .setClipboardData false])
  else if !p.setTxtOk then
    (false, [.openClipboard true, .emptyClipboard true, .registerFormat,
             .setClipboardData true, .setClipboardData false])
  else
    (true, [.openClipboard true, .emptyClipboard true, .registerFormat,
            .setClipboardData true, .setClipboardData true, .closeClipboard])

def tkFallback : List ClipEvent := [.tkClear, .tkAppend]

/- Source: set_html_clipboard_fragment (lines 183-208) on Windows: try the
   pywin32 path; on any exception try the raw Win32 path; on any exception
   there fall through to the Tk plain-text fallback. -/
def set_html_clipboard_fragment (p : Pywin32Api) (api : Win32Api) : List ClipEvent :=
  if p.available then
    let a := pywin32Attempt p
    if a.1 then a.2
    else
      let b := setClipboardHtmlWin32 api
      if b.1 then a.2 ++ b.2 else a.2 ++ b.2 ++ tkFallback
  else
    let b := setClipboardHtmlWin32 api
    if b.1 then b.2 else b.2 ++ tkFallback

def countOpens (tr : List ClipEvent) : Nat :=
  tr.countP (fun e => e = .openClipboard true)

def countCloses (tr : List ClipEvent) : Nat :=
  tr.countP (fun e => e = .closeClipboard)

/- ----------------------------------------------------------------------
   Formatter and markup encoder (lines 359-402, claims C3, C4).
   ---------------------------------------------------------------------- -/

def HEADING_PC : PyStr := strB "PC login:"
def HEADING_ITRIS : PyStr := strB "Itris:"
def HEADING_TEL : PyStr := strB "Telephone and DDI:"

/- Python str.startswith. -/
def startsWithAux : PyStr → PyStr → Bool
  | [], _ => true
  | _ :: _, [] => false
  | p :: ps, c :: cs => p == c && startsWithAux ps cs

def pyStartsWith (s pre : PyStr) : Bool := startsWithAux pre s

def isHeadingLine (s : PyStr) : Bool :=
  pyStartsWith s HEADING_PC || pyStartsWith s HEADING_ITRIS || pyStartsWith s HEADING_TEL

/- Source: format_email_text (lines 359-382), written as the intercalation of
   the template lines of its f-string (the f-string ends with a newline, hence
   the final empty line).  The record is the result of reading each schema key
   with rec.get(key, default empty); the stored username is used when truthy,
   otherwise it is derived from full_name. -/
def format_email_lines (r : Record) : List PyStr :=
  let username := if r.username = [] then make_username r.full_name else r.username
  [strB "Hi,",
   [],
   strB "Please see below for " ++ r.full_name ++ strB "\x27s login details.",
   [],
   strB "PC login:",
   strB "PC Name: " ++ r.pc_name,
   strB "Username: " ++ username,
   strB "Password: " ++ r.password,
   [],
   strB "Itris:",
   strB "Username: " ++ username,
   strB "Password: " ++ r.password,
   [],
   strB "Telephone and DDI:",
   strB "Ext: " ++ r.ext,
   strB "DDI: " ++ r.ddi,
   [],
   strB "Thanks,",
   []]

def format_email_text (r : Record) : PyStr :=
  List.intercalate (strB "\n") (format_email_lines r)

/- Source: escape_html (lines 400-402) = html.escape with quote=True, which
   replaces ampersand, angle brackets and both quote characters; the
   sequential str.replace calls are equivalent to this character map because
   the ampersand replacement happens first. -/
def escapeHtmlChar (c : Char) : PyStr :=
  if c = '&' then strB "&amp;"
  else if c = '<' then strB "&lt;"
  else if c = '>' then strB "&gt;"
  else if c = '"' then strB "&quot;"
  else if c = '\'' then strB "&#x27;"
  else [c]

def escape_html (s : PyStr) : PyStr := (s.map escapeHtmlChar).flatten

/- Python str.rstrip with a newline argument: strip trailing LF characters. -/
def rstripNl (s : PyStr) : PyStr :=
  (s.reverse.dropWhile (fun c => c = '\n')).reverse

/- Loop body of format_html_lines_for_fragment (lines 384-398). -/
def encodeFragmentLine (raw : PyStr) : PyStr :=
  let s := rstripNl raw
  if s = [] then strB "<br/>"
  else if pyStartsWith s HEADING_PC || pyStartsWith s HEADING_ITRIS ||
      pyStartsWith s HEADING_TEL then
    strB "<b><u>" ++ escape_html s ++ strB "</u></b><br/>"
  else escape_html s ++ strB "<br/>"

/- Source: format_html_lines_for_fragment (lines 384-398): the out list is
   built by the loop body per line and joined with the empty separator. -/
def format_html_lines_for_fragment (lines : List PyStr) : PyStr :=
  (lines.map encodeFragmentLine).flatten

/- ----------------------------------------------------------------------
   CF_HTML container builder (lines 123-138, claim C2).
   Bytes are modeled as List Char with code points below 256.
   ---------------------------------------------------------------------- -/

/- UTF-8 encoding of a code-point sequence, one to four bytes per character. -/
def utf8EncodeChar (c : Char) : PyStr :=
  let n := c.toNat
  if n < 0x80 then [Char.ofNat n]
  else if n < 0x800 then
    [Char.ofNat (0xC0 + n / 0x40), Char.ofNat (0x80 + n % 0x40)]
  else if n < 0x10000 then
    [Char.ofNat (0xE0 + n / 0x1000), Char.ofNat (0x80 + n / 0x40 % 0x40),
     Char.ofNat (0x80 + n % 0x40)]
  else
    [Char.ofNat (0xF0 + n / 0x40000), Char.ofNat (0x80 + n / 0x1000 % 0x40),
     Char.ofNat (0x80 + n / 0x40 % 0x40), Char.ofNat (0x80 + n % 0x40)]

def utf8Encode (s : PyStr) : PyStr := (s.map utf8EncodeChar).flatten

/- Python bytes.find: index of the first occurrence of needle, or -1. -/
def bfindAux (hay needle : PyStr) (i : Nat) : Int :=
  match hay with
  | [] => if needle = [] then (i : Int) else -1
  | _ :: t => if pyStartsWith hay needle then (i : Int) else bfindAux t needle (i + 1)

def bfind (hay needle : PyStr) : Int := bfindAux hay needle 0

def containsSub (hay needle : PyStr) : Bool :=
  match hay with
  | [] => needle.isEmpty
  | _ :: t => pyStartsWith hay needle || containsSub t needle

/- Decimal digit characters of a natural number.  Structural recursion on a
   fuel argument; fuel n + 1 always suffices since the digit count of n is at
   most n + 1. -/
def natDecimalAux : Nat → Nat → PyStr
  | 0, _ => []
  | fuel + 1, n =>
    if n < 10 then [Char.ofNat (48 + n)]
    else natDecimalAux fuel (n / 10) ++ [Char.ofNat (48 + n % 10)]

def natDecimal (n : Nat) : PyStr := natDecimalAux (n + 1) n

/- The %08d directive: decimal, zero-padded on the left to at least width 8. -/
def fmt8 (n : Nat) : PyStr :=
  List.replicate (8 - (natDecimal n).length) '0' ++ natDecimal n

def START_FRAGMENT_MARKER : PyStr := strB "<!--StartFragment-->"
def END_FRAGMENT_MARKER : PyStr := strB "<!--EndFragment-->"

/- The header_template of _make_cf_html_bytes with its four %08d holes
   filled. -/
def cfHeader (startHtml endHtml startFragment endFragment : Nat) : PyStr :=
  strB "Version:0.9\r\nStartHTML:" ++ fmt8 startHtml ++
  strB "\r\nEndHTML:" ++ fmt8 endHtml ++
  strB "\r\nStartFragment:" ++ fmt8 startFragment ++
  strB "\r\nEndFragment:" ++ fmt8 endFragment ++ strB "\r\n"

structure CfContainer where
  container : PyStr
  startHtml : Nat
  endHtml : Nat
  startFragment : Nat
  endFragment : Nat

/- Source: _make_cf_html_bytes (lines 123-138) on an already-encoded fragment
   byte sequence (the bytes branch of the function; the str branch first
   applies utf8Encode, see make_cf_html_of_str).  Both markers occur in
   html_body by construction, so the two bytes.find results are nonnegative
   and their Int.toNat is exact.  The container and the four header offsets
   are returned together. -/
def make_cf_html (fragment_bytes : PyStr) : CfContainer :=
  let html_body := strB "<html><body>" ++ START_FRAGMENT_MARKER ++ fragment_bytes ++
    END_FRAGMENT_MARKER ++ strB "</body></html>"
  let header_len := (cfHeader 0 0 0 0).length
  let start_html := header_len
  let start_fragment :=
    start_html + (bfind html_body START_FRAGMENT_MARKER).toNat + START_FRAGMENT_MARKER.length
  let end_fragment := start_html + (bfind html_body END_FRAGMENT_MARKER).toNat
  let end_html := start_html + html_body.length
  ⟨cfHeader start_html end_html start_fragment end_fragment ++ html_body,
   start_html, end_html, start_fragment, end_fragment⟩

def make_cf_html_of_str (fragment_html : PyStr) : CfContainer :=
  make_cf_html (utf8Encode fragment_html)

/- Python slicing data with the nonnegative offsets that arise here. -/
def pySlice (l : PyStr) (a b : Nat) : PyStr := (l.take b).drop a

/- ----------------------------------------------------------------------
   Theorems.
   ---------------------------------------------------------------------- -/

theorem pySplitAux_ne_nil (s : PyStr) : ∀ cur, [] ∉ pySplitAux s cur := by
  induction s with
  | nil =>
    intro cur
    simp only [pySplitAux]
    split
    · simp
    · simp_all
  | cons c t ih =>
    intro cur
    simp only [pySplitAux]
    split
    · split
      · exact ih []
      · rename_i hcur
        intro h
        rcases List.mem_cons.mp h with h | h
        · exact hcur h.symm
        · exact ih [] h
    · exact ih (cur ++ [c])

theorem pySplit_ne_nil (s : PyStr) : [] ∉ pySplit s := pySplitAux_ne_nil s []

/-- Claim C5 (counterexample): the claim says each token keeps everything after
its capitalized initial, but Python str.capitalize also lowercases the rest of
the token, so make_username "McLean" = "Mclean" while the claimed derivation
yields "McLean". -/
theorem c5_counterexample :
    make_username (strB "McLean") ≠ derive_username_claim (strB "McLean") := by
  decide

/-- Claim C5 (amended): for every full_name string, make_username is the
dot-join of the whitespace-separated tokens of the trimmed full_name with each
token Python-capitalized (initial uppercased, remaining characters lowercased);
and the three pinned examples hold. -/
theorem c5_make_username_correct :
    (∀ s : PyStr, make_username s =
      List.intercalate (strB ".") ((pySplit (pyStrip s)).map pyCapitalize)) ∧
    make_username (strB "suhel shaikh") = strB "Suhel.Shaikh" ∧
    make_username (strB "") = strB "" ∧
    make_username (strB "  jo   bloggs ") = strB "Jo.Bloggs" := by
  refine ⟨fun s => ?_, by decide, by decide, by decide⟩
  have hfil : (pySplit (pyStrip s)).filter (fun p => p ≠ []) = pySplit (pyStrip s) := by
    apply List.filter_eq_self.mpr
    intro a ha
    have hne : a ≠ [] := fun h => pySplit_ne_nil (pyStrip s) (h ▸ ha)
    simpa using hne
  simp only [make_username, hfil]
  split
  · rfl
  · rename_i h
    simp only [ne_eq, not_not] at h
    rw [h]
    rfl

/- Helper lemmas about pyStrip, used for claim C10. -/

theorem mem_dropWhile_of_mem {p : Char → Bool} {c : Char} :
    ∀ {l : PyStr}, c ∈ l → p c = false → c ∈ l.dropWhile p := by
  intro l
  induction l with
  | nil => simp
  | cons a t ih =>
    intro hc hpc
    by_cases hpa : p a
    · simp only [List.dropWhile_cons, hpa, if_true]
      rcases List.mem_cons.mp hc with rfl | h
      · rw [hpa] at hpc; cases hpc
      · exact ih h hpc
    · simp only [List.dropWhile_cons, hpa, if_false]
      exact hc

theorem mem_pyStrip_of_mem {c : Char} {s : PyStr}
    (hc : c ∈ s) (hpc : pyIsSpace c = false) : c ∈ pyStrip s := by
  unfold pyStrip
  have h1 : c ∈ s.dropWhile pyIsSpace := mem_dropWhile_of_mem hc hpc
  have h2 : c ∈ (s.dropWhile pyIsSpace).reverse := List.mem_reverse.mpr h1
  exact List.mem_reverse.mpr (mem_dropWhile_of_mem h2 hpc)

theorem pyStrip_nil_of_all_space {s : PyStr}
    (h : ∀ c ∈ s, pyIsSpace c = true) : pyStrip s = [] := by
  have hd : s.dropWhile pyIsSpace = [] := List.dropWhile_eq_nil_iff.mpr h
  unfold pyStrip
  rw [hd]
  rfl

theorem pyStrip_pyStrip_ne_nil {s : PyStr} (h : pyStrip s ≠ []) :
    pyStrip (pyStrip s) ≠ [] := by
  have hex : ∃ c ∈ s, pyIsSpace c = false := by
    by_contra hall
    push_neg at hall
    refine h (pyStrip_nil_of_all_space fun c hc => ?_)
    have := hall c hc
    revert this
    cases pyIsSpace c <;> simp
  obtain ⟨c, hcs, hcf⟩ := hex
  have h1 := mem_pyStrip_of_mem hcs hcf
  have h2 := mem_pyStrip_of_mem h1 hcf
  intro hnil
  rw [hnil] at h2
  cases h2

/-- Claim C9: when the settings store is absent or corrupt (unreadable or
invalid JSON), load_config silently selects the default record-file path and
does not fail; when the store is readable and names a non-empty path, that
configured path is kept as the record-file path even when no file currently
exists at it (the pathExists oracle is arbitrary, in particular always
false). -/
theorem c9_load_config_fallback (pathExists : PyStr → Bool) :
    load_config .absent pathExists = DEFAULT_DB ∧
    load_config .unreadable pathExists = DEFAULT_DB ∧
    load_config .invalidJson pathExists = DEFAULT_DB ∧
    (∀ p : PyStr, p ≠ [] →
      load_config (.parsed (some (.str p))) pathExists = p) := by
  refine ⟨rfl, rfl, rfl, fun p hp => ?_⟩
  simp [load_config, hp]

/-- Witness for C9: a concrete configured path that does not exist on disk is
still kept. -/
theorem c9_witness :
    strB "missing_dir.csv" ≠ [] ∧
    load_config (.parsed (some (.str (strB "missing_dir.csv")))) (fun _ => false) =
      strB "missing_dir.csv" :=
  ⟨by decide,
   (c9_load_config_fallback (fun _ => false)).2.2.2 (strB "missing_dir.csv") (by decide)⟩

/-- Claim C10: a record persisted through the save or update entry point has
non-empty whitespace-stripped full_name, pc_name and password, its username
equals make_username of its full_name, and its email is the username followed
by the fixed domain suffix, at the moment it is persisted. -/
theorem c10_persisted_record_invariant :
    (∀ (form : FormInput) (recs out : List Record), save_new form recs = some out →
      ∃ r, out = r :: recs ∧ record_invariant r) ∧
    (∀ (form : FormInput) (recs out : List Record) (idx : Nat),
      update_record form recs (some idx) = some out →
      ∃ r, out = recs.set idx r ∧ record_invariant r) := by
  constructor
  · intro form recs out h
    simp only [save_new] at h
    split at h
    · cases h
    · rename_i hval
      push_neg at hval
      obtain ⟨hfull, hpc, hpw⟩ := hval
      refine ⟨_, (Option.some_inj.mp h).symm, ?_⟩
      exact ⟨pyStrip_pyStrip_ne_nil hfull, pyStrip_pyStrip_ne_nil hpc,
             pyStrip_pyStrip_ne_nil hpw, rfl, rfl⟩
  · intro form recs out idx h
    simp only [update_record] at h
    split at h
    · cases h
    · rename_i hval
      push_neg at hval
      obtain ⟨hfull, hpc, hpw⟩ := hval
      split at h
      · refine ⟨_, (Option.some_inj.mp h).symm, ?_⟩
        exact ⟨pyStrip_pyStrip_ne_nil hfull, pyStrip_pyStrip_ne_nil hpc,
               pyStrip_pyStrip_ne_nil hpw, rfl, rfl⟩
      · cases h

/-- Witness for C10: saving a concrete valid form produces a record satisfying
the invariant. -/
theorem c10_witness :
    record_invariant (Record.mk (strB "ann lee") (strB "Ann.Lee") (strB "Pw1!")
      (strB "PC-01") [] [] (strB "Ann.Lee@totalassist.co.uk")) := by
  have h : save_new ⟨strB "ann lee", strB "PC-01", strB "Pw1!", [], []⟩ [] =
      some [Record.mk (strB "ann lee") (strB "Ann.Lee") (strB "Pw1!") (strB "PC-01")
              [] [] (strB "Ann.Lee@totalassist.co.uk")] := by decide
  obtain ⟨r, hr, hinv⟩ := c10_persisted_record_invariant.1 _ [] _ h
  obtain ⟨h1, _⟩ := List.cons.inj hr
  exact h1 ▸ hinv

/-- Claim C6 (counterexample): when the record-file path itself ends in .tmp,
with_suffix returns the path unchanged, so the failing temp write truncates
and overwrites the previously-saved target file itself. -/
theorem c6_counterexample :
    (fun q => if q = strB "db.tmp" then some (strB "OLD") else none : FileSys)
        (strB "db.tmp") = some (strB "OLD") ∧
    save_records_fail_mid
        (fun q => if q = strB "db.tmp" then some (strB "OLD") else none)
        (strB "db.tmp") (strB "full_nam") (strB "db.tmp") ≠ some (strB "OLD") := by
  constructor
  · decide
  · decide

/-- Claim C6 (amended): if the temp-file write step of save_records fails
midway (before os.replace), the previously-saved target file is left
byte-for-byte unchanged, provided the temp sibling path with_suffix of tmp
differs from the target path itself (which holds unless the configured
record-file path already ends in .tmp). -/
theorem c6_save_fail_preserves_target (fs : FileSys) (dbPath writtenSoFar old : PyStr)
    (hdb : fs dbPath = some old)
    (htmp : pyWithSuffix dbPath (strB ".tmp") ≠ dbPath) :
    save_records_fail_mid fs dbPath writtenSoFar dbPath = some old := by
  unfold save_records_fail_mid
  have hens : ensure_db fs dbPath = fs := by
    unfold ensure_db
    rw [hdb]
  rw [hens]
  unfold fsSet
  rw [if_neg (fun h => htmp h.symm)]
  exact hdb

/-- Witness for C6: a concrete store at db.csv with a failing temp write keeps
the old bytes. -/
theorem c6_witness :
    save_records_fail_mid
        (fun q => if q = strB "db.csv" then some (strB "OLD") else none)
        (strB "db.csv") (strB "full_nam") (strB "db.csv") = some (strB "OLD") :=
  c6_save_fail_preserves_target
    (fun q => if q = strB "db.csv" then some (strB "OLD") else none)
    (strB "db.csv") (strB "full_nam") (strB "OLD") (by decide) (by decide)

/-- Claim C8 (code evaluation at the failing input): in the pywin32 branch of
set_html_clipboard_fragment, when OpenClipboard and EmptyClipboard succeed and
SetClipboardData for the HTML format then raises, the branch reaches its
exception handler without calling CloseClipboard (it has no try/finally), so
whatever the raw-Win32 fallback then does, the whole call records one more
successful OpenClipboard than CloseClipboard: a successfully opened clipboard
is not always closed, contradicting the claimed guaranteed release. -/
theorem c8_clipboard_open_not_closed :
    ∀ api : Win32Api,
      countOpens (set_html_clipboard_fragment ⟨true, true, true, false, false⟩ api) =
        countCloses (set_html_clipboard_fragment ⟨true, true, true, false, false⟩ api)
          + 1 := by
  intro api
  rcases api with ⟨a, b, c, d, e, f, g, h⟩
  revert a b c d e f g h
  decide

/-- Claim C4: the markup encoder concatenates, per input line in order: a
line-break marker for a line that is empty after stripping trailing newlines;
otherwise the text-escaped line, wrapped in bold+underline markers exactly
when the raw unescaped line starts with one of the three fixed heading
prefixes (a case-sensitive literal prefix match); in particular the line
"PC login:" is wrapped and the line "pc login:" is not. -/
theorem c4_markup_encoder :
    (∀ (raw : PyStr) (ls : List PyStr),
      format_html_lines_for_fragment (raw :: ls) =
        encodeFragmentLine raw ++ format_html_lines_for_fragment ls) ∧
    format_html_lines_for_fragment [] = [] ∧
    (∀ raw : PyStr, rstripNl raw = [] → encodeFragmentLine raw = strB "<br/>") ∧
    (∀ raw : PyStr, rstripNl raw ≠ [] → isHeadingLine (rstripNl raw) = true →
      encodeFragmentLine raw =
        strB "<b><u>" ++ escape_html (rstripNl raw) ++ strB "</u></b><br/>") ∧
    (∀ raw : PyStr, rstripNl raw ≠ [] → isHeadingLine (rstripNl raw) = false →
      encodeFragmentLine raw = escape_html (rstripNl raw) ++ strB "<br/>") ∧
    format_html_lines_for_fragment [strB "PC login:"] =
      strB "<b><u>PC login:</u></b><br/>" ∧
    format_html_lines_for_fragment [strB "pc login:"] = strB "pc login:<br/>" := by
  refine ⟨fun raw ls => ?_, rfl, fun raw h => ?_, fun raw h1 h2 => ?_,
    fun raw h1 h2 => ?_, by decide, by decide⟩
  · simp [format_html_lines_for_fragment]
  · simp [encodeFragmentLine, h]
  · simp only [isHeadingLine] at h2
    simp [encodeFragmentLine, h1, h2]
  · simp only [isHeadingLine] at h2
    simp [encodeFragmentLine, h1, h2]

/-- Witness for C4: a concrete heading line with trailing newline is wrapped. -/
theorem c4_witness :
    encodeFragmentLine (strB "Itris: x\n") =
      strB "<b><u>" ++ escape_html (rstripNl (strB "Itris: x\n")) ++ strB "</u></b><br/>" :=
  c4_markup_encoder.2.2.2.1 (strB "Itris: x\n") (by decide) (by decide)

/-- Claim C3 (counterexample): the claim says pc_name appears twice, once
under each of the first two headings, but in the produced document the
pc_name value appears on exactly one line (under PC login: only). -/
theorem c3_counterexample :
    ((format_email_text (Record.mk (strB "Ann") [] (strB "pw") (strB "PCX")
        (strB "7") (strB "8") [])).splitOn '\n').countP
        (fun l => containsSub l (strB "PCX")) = 1 ∧
    ¬ ((format_email_text (Record.mk (strB "Ann") [] (strB "pw") (strB "PCX")
        (strB "7") (strB "8") [])).splitOn '\n').countP
        (fun l => containsSub l (strB "PCX")) = 2 := by
  constructor <;> decide

/-- Claim C3 (amended): for every record whose rendered field values contain
no newline, the document produced by format_email_text splits on line breaks
into exactly the fixed 19-line template format_email_lines, whose heading
lines are exactly PC login:, Itris: and Telephone and DDI: in that order;
username and password each appear twice (once under each of the first two
headings), pc_name once (under the first), and ext and ddi once each (under
the third); absent fields render as an empty string after the colon, and the
function is total, hence never raises. -/
theorem not_mem_append_chr {c : Char} {a b : PyStr} (ha : c ∉ a) (hb : c ∉ b) :
    c ∉ a ++ b := by
  intro h
  rcases List.mem_append.mp h with h | h
  · exact ha h
  · exact hb h

theorem c3_format_template (r : Record)
    (hfull : '\n' ∉ r.full_name) (hpc : '\n' ∉ r.pc_name) (hpw : '\n' ∉ r.password)
    (hext : '\n' ∉ r.ext) (hddi : '\n' ∉ r.ddi)
    (husr : '\n' ∉ (if r.username = [] then make_username r.full_name else r.username)) :
    (format_email_text r).splitOn '\n' = format_email_lines r ∧
    (format_email_lines r).filter (fun l => isHeadingLine l) =
      [HEADING_PC, HEADING_ITRIS, HEADING_TEL] ∧
    (format_email_lines r).countP (fun l => pyStartsWith l (strB "Username: ")) = 2 ∧
    (format_email_lines r).countP (fun l => pyStartsWith l (strB "Password: ")) = 2 ∧
    (format_email_lines r).countP (fun l => pyStartsWith l (strB "PC Name: ")) = 1 ∧
    (format_email_lines r).countP (fun l => pyStartsWith l (strB "Ext: ")) = 1 ∧
    (format_email_lines r).countP (fun l => pyStartsWith l (strB "DDI: ")) = 1 := by
  have hnl : ∀ l ∈ format_email_lines r, '\n' ∉ l := by
    intro l hl
    simp only [format_email_lines, List.mem_cons, List.not_mem_nil, or_false] at hl
    rcases hl with rfl | rfl | rfl | rfl | rfl | rfl | rfl | rfl | rfl | rfl | rfl | rfl |
      rfl | rfl | rfl | rfl | rfl | rfl | rfl
    all_goals
      first
        | decide
        | exact not_mem_append_chr (by decide) (by assumption)
        | exact not_mem_append_chr
            (not_mem_append_chr (by decide) (by assumption)) (by decide)
  refine ⟨?_, rfl, rfl, rfl, rfl, rfl, rfl⟩
  show (List.intercalate (strB "\n") (format_email_lines r)).splitOn '\n' =
    format_email_lines r
  have hsep : strB "\n" = ['\n'] := rfl
  rw [hsep]
  exact List.splitOn_intercalate _ '\n' hnl (by simp [format_email_lines])

/-- Witness for C3: the record with every field empty still yields the full
template with its three headings and empty values. -/
theorem c3_witness :
    (format_email_text (Record.mk [] [] [] [] [] [] [])).splitOn '\n' =
      format_email_lines (Record.mk [] [] [] [] [] [] []) ∧
    (format_email_lines (Record.mk [] [] [] [] [] [] [])).filter
      (fun l => isHeadingLine l) = [HEADING_PC, HEADING_ITRIS, HEADING_TEL] ∧
    (format_email_lines (Record.mk [] [] [] [] [] [] [])).countP
      (fun l => pyStartsWith l (strB "Username: ")) = 2 ∧
    (format_email_lines (Record.mk [] [] [] [] [] [] [])).countP
      (fun l => pyStartsWith l (strB "Password: ")) = 2 ∧
    (format_email_lines (Record.mk [] [] [] [] [] [] [])).countP
      (fun l => pyStartsWith l (strB "PC Name: ")) = 1 ∧
    (format_email_lines (Record.mk [] [] [] [] [] [] [])).countP
      (fun l => pyStartsWith l (strB "Ext: ")) = 1 ∧
    (format_email_lines (Record.mk [] [] [] [] [] [] [])).countP
      (fun l => pyStartsWith l (strB "DDI: ")) = 1 :=
  c3_format_template (Record.mk [] [] [] [] [] [] [])
    (by decide) (by decide) (by decide) (by decide) (by decide) (by decide)

/- Helper lemmas for the CSV writer/reader round trip (claim C1). -/

theorem csvNeedsQuote_false_iff {f : PyStr} : csvNeedsQuote f = false ↔
    ∀ c ∈ f, c ≠ ',' ∧ c ≠ '"' ∧ c ≠ '\r' ∧ c ≠ '\n' := by
  simp only [csvNeedsQuote, List.any_eq_false, Bool.or_eq_true, decide_eq_true_eq,
    not_or]
  constructor
  · intro h c hc
    have := h c hc
    tauto
  · intro h c hc
    have := h c hc
    tauto

theorem csv_foldl_unquoted (s : PyStr) : ∀ (fld : PyStr) (row : List PyStr)
    (rows : List (List PyStr)),
    (∀ c ∈ s, c ≠ ',' ∧ c ≠ '"' ∧ c ≠ '\r' ∧ c ≠ '\n') →
    s.foldl csvStep ⟨.inUnquoted, fld, row, rows⟩ = ⟨.inUnquoted, fld ++ s, row, rows⟩ := by
  induction s with
  | nil => intro fld row rows _; simp
  | cons c t ih =>
    intro fld row rows h
    obtain ⟨h1, h2, h3, h4⟩ := h c (List.mem_cons_self c t)
    have hstep : csvStep ⟨.inUnquoted, fld, row, rows⟩ c =
        ⟨.inUnquoted, fld ++ [c], row, rows⟩ := by
      simp [csvStep, h1, h2, h3, h4]
    show List.foldl csvStep (csvStep ⟨.inUnquoted, fld, row, rows⟩ c) t = _
    rw [hstep, ih (fld ++ [c]) row rows (fun d hd => h d (List.mem_cons_of_mem c hd))]
    simp

theorem csv_foldl_quoted (s : PyStr) : ∀ (fld : PyStr) (row : List PyStr)
    (rows : List (List PyStr)),
    (csvEscapeQuotes s).foldl csvStep ⟨.inQuoted, fld, row, rows⟩ =
      ⟨.inQuoted, fld ++ s, row, rows⟩ := by
  induction s with
  | nil => intro fld row rows; simp [csvEscapeQuotes]
  | cons c t ih =>
    intro fld row rows
    by_cases hc : c = '"'
    · subst hc
      have he : csvEscapeQuotes ('"' :: t) = '"' :: '"' :: csvEscapeQuotes t := by
        simp [csvEscapeQuotes]
      rw [he, List.foldl_cons, List.foldl_cons]
      have s1 : csvStep ⟨.inQuoted, fld, row, rows⟩ '"' =
          ⟨.quoteInQuoted, fld, row, rows⟩ := by simp [csvStep]
      rw [s1]
      have s2 : csvStep ⟨.quoteInQuoted, fld, row, rows⟩ '"' =
          ⟨.inQuoted, fld ++ ['"'], row, rows⟩ := by simp [csvStep]
      rw [s2, ih]
      simp
    · have he : csvEscapeQuotes (c :: t) = c :: csvEscapeQuotes t := by
        simp [csvEscapeQuotes, hc]
      rw [he, List.foldl_cons]
      have s1 : csvStep ⟨.inQuoted, fld, row, rows⟩ c =
          ⟨.inQuoted, fld ++ [c], row, rows⟩ := by simp [csvStep, hc]
      rw [s1, ih]
      simp

theorem csv_foldl_field_comma (f : PyStr) (m : CsvMode)
    (hm : m = .startRecord ∨ m = .startField) (row : List PyStr)
    (rows : List (List PyStr)) :
    (csvEncodeField f ++ [',']).foldl csvStep ⟨m, [], row, rows⟩ =
      ⟨.startField, [], row ++ [f], rows⟩ := by
  by_cases hq : csvNeedsQuote f
  · have he : csvEncodeField f = '"' :: (csvEscapeQuotes f ++ ['"']) := by
      simp [csvEncodeField, hq]
    rw [he, List.cons_append, List.foldl_cons]
    have s1 : csvStep ⟨m, [], row, rows⟩ '"' = ⟨.inQuoted, [], row, rows⟩ := by
      rcases hm with rfl | rfl <;> simp [csvStep]
    rw [s1, List.append_assoc, List.foldl_append, csv_foldl_quoted]
    show List.foldl csvStep (csvStep (csvStep ⟨.inQuoted, [] ++ f, row, rows⟩ '"') ',') [] = _
    have s2 : csvStep ⟨.inQuoted, [] ++ f, row, rows⟩ '"' =
        ⟨.quoteInQuoted, f, row, rows⟩ := by simp [csvStep]
    rw [s2]
    have s3 : csvStep ⟨.quoteInQuoted, f, row, rows⟩ ',' =
        ⟨.startField, [], row ++ [f], rows⟩ := by
      simp [csvStep, csvSaveField]
    rw [s3]
    rfl
  · have hq2 : csvNeedsQuote f = false := Bool.of_not_eq_true hq
    have hchars := csvNeedsQuote_false_iff.mp hq2
    have he : csvEncodeField f = f := by simp [csvEncodeField, hq2]
    rw [he]
    cases f with
    | nil =>
      show List.foldl csvStep (csvStep ⟨m, [], row, rows⟩ ',') [] = _
      have s1 : csvStep ⟨m, [], row, rows⟩ ',' =
          ⟨.startField, [], row ++ [[]], rows⟩ := by
        rcases hm with rfl | rfl <;> simp [csvStep, csvSaveField]
      rw [s1]
      rfl
    | cons c t =>
      obtain ⟨h1, h2, h3, h4⟩ := hchars c (List.mem_cons_self c t)
      rw [List.cons_append, List.foldl_cons]
      have s1 : csvStep ⟨m, [], row, rows⟩ c = ⟨.inUnquoted, [c], row, rows⟩ := by
        rcases hm with rfl | rfl <;> simp [csvStep, h1, h2, h3, h4]
      rw [s1, List.foldl_append,
        csv_foldl_unquoted t [c] row rows
          (fun d hd => hchars d (List.mem_cons_of_mem c hd))]
      show List.foldl csvStep (csvStep ⟨.inUnquoted, [c] ++ t, row, rows⟩ ',') [] = _
      have s2 : csvStep ⟨.inUnquoted, [c] ++ t, row, rows⟩ ',' =
          ⟨.startField, [], row ++ [c :: t], rows⟩ := by
        simp [csvStep, csvSaveField]
      rw [s2]
      rfl

theorem csv_foldl_field_crlf (f : PyStr) (row : List PyStr)
    (rows : List (List PyStr)) :
    (csvEncodeField f ++ ['\x0d', '\n']).foldl csvStep ⟨.startField, [], row, rows⟩ =
      ⟨.startRecord, [], [], rows ++ [row ++ [f]]⟩ := by
  by_cases hq : csvNeedsQuote f
  · have he : csvEncodeField f = '"' :: (csvEscapeQuotes f ++ ['"']) := by
      simp [csvEncodeField, hq]
    rw [he, List.cons_append, List.foldl_cons]
    have s1 : csvStep ⟨.startField, [], row, rows⟩ '"' = ⟨.inQuoted, [], row, rows⟩ := by
      simp [csvStep]
    rw [s1, List.append_assoc, List.foldl_append, csv_foldl_quoted]
    show List.foldl csvStep
      (csvStep (csvStep (csvStep ⟨.inQuoted, [] ++ f, row, rows⟩ '"') '\x0d') '\n') [] = _
    have s2 : csvStep ⟨.inQuoted, [] ++ f, row, rows⟩ '"' =
        ⟨.quoteInQuoted, f, row, rows⟩ := by simp [csvStep]
    rw [s2]
    have s3 : csvStep ⟨.quoteInQuoted, f, row, rows⟩ '\x0d' =
        ⟨.eatCrlf, [], [], rows ++ [row ++ [f]]⟩ := by
      simp [csvStep, csvSaveField, csvSaveRow]
    rw [s3]
    have s4 : csvStep ⟨.eatCrlf, [], [], rows ++ [row ++ [f]]⟩ '\n' =
        ⟨.startRecord, [], [], rows ++ [row ++ [f]]⟩ := by
      simp [csvStep]
    rw [s4]
    rfl
  · have hq2 : csvNeedsQuote f = false := Bool.of_not_eq_true hq
    have hchars := csvNeedsQuote_false_iff.mp hq2
    have he : csvEncodeField f = f := by simp [csvEncodeField, hq2]
    rw [he]
    cases f with
    | nil =>
      show List.foldl csvStep (csvStep (csvStep ⟨.startField, [], row, rows⟩ '\x0d') '\n') [] = _
      have s1 : csvStep ⟨.startField, [], row, rows⟩ '\x0d' =
          ⟨.eatCrlf, [], [], rows ++ [row ++ [[]]]⟩ := by
        simp [csvStep, csvSaveField, csvSaveRow]
      rw [s1]
      have s2 : csvStep ⟨.eatCrlf, [], [], rows ++ [row ++ [[]]]⟩ '\n' =
          ⟨.startRecord, [], [], rows ++ [row ++ [[]]]⟩ := by simp [csvStep]
      rw [s2]
      rfl
    | cons c t =>
      obtain ⟨h1, h2, h3, h4⟩ := hchars c (List.mem_cons_self c t)
      rw [List.cons_append, List.foldl_cons]
      have s1 : csvStep ⟨.startField, [], row, rows⟩ c = ⟨.inUnquoted, [c], row, rows⟩ := by
        simp [csvStep, h1, h2, h3, h4]
      rw [s1, List.foldl_append,
        csv_foldl_unquoted t [c] row rows
          (fun d hd => hchars d (List.mem_cons_of_mem c hd))]
      show List.foldl csvStep
        (csvStep (csvStep ⟨.inUnquoted, [c] ++ t, row, rows⟩ '\x0d') '\n') [] = _
      have s2 : csvStep ⟨.inUnquoted, [c] ++ t, row, rows⟩ '\x0d' =
          ⟨.eatCrlf, [], [], rows ++ [row ++ [c :: t]]⟩ := by
        simp [csvStep, csvSaveField, csvSaveRow]
      rw [s2]
      have s3 : csvStep ⟨.eatCrlf, [], [], rows ++ [row ++ [c :: t]]⟩ '\n' =
          ⟨.startRecord, [], [], rows ++ [row ++ [c :: t]]⟩ := by simp [csvStep]
      rw [s3]
      rfl

theorem intercalate_cons_two (s a b : PyStr) (t : List PyStr) :
    List.intercalate s (a :: b :: t) = a ++ s ++ List.intercalate s (b :: t) := by
  simp [List.intercalate, List.intersperse_cons_cons, List.append_assoc]

theorem csv_foldl_row_tail : ∀ (fs : List PyStr) (f : PyStr) (row : List PyStr)
    (rows : List (List PyStr)),
    (List.intercalate (strB ",") ((f :: fs).map csvEncodeField) ++ strB "\r\n").foldl
        csvStep ⟨.startField, [], row, rows⟩ =
      ⟨.startRecord, [], [], rows ++ [row ++ (f :: fs)]⟩ := by
  intro fs
  induction fs with
  | nil =>
    intro f row rows
    show (List.intercalate (strB ",") [csvEncodeField f] ++ strB "\r\n").foldl csvStep _ = _
    have h1 : List.intercalate (strB ",") [csvEncodeField f] = csvEncodeField f := by
      simp [List.intercalate]
    rw [h1]
    exact csv_foldl_field_crlf f row rows
  | cons f2 t ih =>
    intro f row rows
    rw [List.map_cons, List.map_cons, intercalate_cons_two, ← List.map_cons]
    have hsh : (csvEncodeField f ++ strB "," ++
          List.intercalate (strB ",") ((f2 :: t).map csvEncodeField)) ++ strB "\r\n" =
        (csvEncodeField f ++ [',']) ++
          (List.intercalate (strB ",") ((f2 :: t).map csvEncodeField) ++ strB "\r\n") := by
      simp [List.append_assoc]
      rfl
    rw [hsh, List.foldl_append,
      csv_foldl_field_comma f .startField (Or.inr rfl) row rows, ih]
    simp [List.append_assoc]

theorem csv_foldl_row (f : PyStr) (fs : List PyStr) (hfs : fs ≠ [])
    (rows : List (List PyStr)) :
    (csvEncodeRow (f :: fs)).foldl csvStep ⟨.startRecord, [], [], rows⟩ =
      ⟨.startRecord, [], [], rows ++ [f :: fs]⟩ := by
  obtain ⟨f2, t, rfl⟩ := List.exists_cons_of_ne_nil hfs
  show (List.intercalate (strB ",") ((f :: f2 :: t).map csvEncodeField) ++ strB "\r\n").foldl
      csvStep _ = _
  rw [List.map_cons, List.map_cons, intercalate_cons_two, ← List.map_cons]
  have hsh : (csvEncodeField f ++ strB "," ++
        List.intercalate (strB ",") ((f2 :: t).map csvEncodeField)) ++ strB "\r\n" =
      (csvEncodeField f ++ [',']) ++
        (List.intercalate (strB ",") ((f2 :: t).map csvEncodeField) ++ strB "\r\n") := by
    simp [List.append_assoc]
    rfl
  rw [hsh, List.foldl_append,
    csv_foldl_field_comma f .startRecord (Or.inl rfl) [] rows,
    csv_foldl_row_tail]
  rfl

theorem csv_foldl_records : ∀ (recs : List Record) (rows : List (List PyStr)),
    ((recs.map (fun r => csvEncodeRow (recordFields r))).flatten).foldl csvStep
        ⟨.startRecord, [], [], rows⟩ =
      ⟨.startRecord, [], [], rows ++ recs.map recordFields⟩ := by
  intro recs
  induction recs with
  | nil => intro rows; simp
  | cons r t ih =>
    intro rows
    simp only [List.map_cons, List.flatten_cons]
    rw [List.foldl_append]
    have hr : (csvEncodeRow (recordFields r)).foldl csvStep ⟨.startRecord, [], [], rows⟩ =
        ⟨.startRecord, [], [], rows ++ [recordFields r]⟩ := by
      show (csvEncodeRow (r.full_name :: [r.username, r.password, r.pc_name, r.ext,
        r.ddi, r.email])).foldl csvStep _ = _
      exact csv_foldl_row r.full_name _ (by simp) rows
    rw [hr, ih]
    simp

theorem csvParse_save (recs : List Record) :
    csvParse (save_records_content recs) = FIELDS :: recs.map recordFields := by
  unfold csvParse save_records_content
  rw [List.foldl_append]
  have hinit : csvInit = (⟨.startRecord, [], [], []⟩ : CsvState) := rfl
  rw [hinit]
  have hhdr : (csvEncodeRow FIELDS).foldl csvStep ⟨.startRecord, [], [], []⟩ =
      ⟨.startRecord, [], [], [] ++ [FIELDS]⟩ := by
    show (csvEncodeRow (strB "full_name" :: [strB "username", strB "password",
      strB "pc_name", strB "ext", strB "ddi", strB "email"])).foldl csvStep _ = _
    exact csv_foldl_row (strB "full_name") _ (by simp) []
  rw [hhdr, csv_foldl_records]
  simp [csvFinish]

/-- Claim C1: for every sequence of records, including records whose fields
contain the delimiter, the quote character or line breaks, loading the file
written by a completed save returns exactly the saved records, in the same
order, field for field: each loaded row is the field map of the corresponding
saved record. -/
theorem c1_store_round_trip (recs : List Record) :
    load_records (save_records_content recs) = recs.map recordToDict := by
  unfold load_records
  rw [csvParse_save]
  show ((recs.map recordFields).filter (fun r => r ≠ [])).map (dictReaderRow FIELDS) =
    recs.map recordToDict
  have hfil : (recs.map recordFields).filter (fun r => r ≠ []) = recs.map recordFields := by
    apply List.filter_eq_self.mpr
    intro a ha
    obtain ⟨r, _, rfl⟩ := List.mem_map.mp ha
    simp [recordFields]
  rw [hfil, List.map_map]
  exact List.map_congr_left (fun r _ => rfl)

/- Helper lemmas about dict lookup for claim C7. -/

theorem dictInsert_lookup_none {k0 k : PyStr} {v : PyVal} :
    ∀ {d : PyDict}, k0 ≠ k → dictLookup d k = none →
    dictLookup (dictInsert d k0 v) k = none := by
  intro d
  induction d with
  | nil => intro hk _; simp [dictInsert, dictLookup, hk]
  | cons p t ih =>
    intro hk hd
    obtain ⟨k1, v1⟩ := p
    by_cases h1 : k1 = k
    · simp [dictLookup, h1] at hd
    · simp only [dictLookup, h1, if_neg, if_false] at hd
      by_cases h2 : k1 = k0
      · subst h2
        simp [dictInsert, dictLookup, h1, hd]
      · simp [dictInsert, dictLookup, h1, h2, ih hk hd]

theorem dictOfPairs_lookup_notin (k : PyStr) :
    ∀ (ps : List (PyStr × PyVal)) (d : PyDict),
    (∀ p ∈ ps, p.1 ≠ k) → dictLookup d k = none →
    dictLookup (ps.foldl (fun d kv => dictInsert d kv.1 kv.2) d) k = none := by
  intro ps
  induction ps with
  | nil => intro d _ hd; simpa using hd
  | cons kv t ih =>
    intro d h hd
    rw [List.foldl_cons]
    exact ih (dictInsert d kv.1 kv.2)
      (fun p hp => h p (List.mem_cons_of_mem kv hp))
      (dictInsert_lookup_none (h kv (List.mem_cons_self kv t)) hd)

theorem dictReaderRow_lookup_notin (fieldnames row : List PyStr) (k : PyStr)
    (hk : k ∉ fieldnames) : dictLookup (dictReaderRow fieldnames row) k = none := by
  unfold dictReaderRow dictOfPairs
  apply dictOfPairs_lookup_notin
  · intro p hp
    obtain ⟨a, b⟩ := p
    have ha := (List.of_mem_zip hp).1
    exact fun h => hk (h ▸ ha)
  · rfl

/-- Claim C7: for every file content whose header row lacks a schema column,
load_records (a total function, so the load never fails as a whole) returns
records in which the missing column's key is absent altogether, so reading
that field with the empty-string default, as every consumer of load_records
does, yields the empty string. -/
theorem c7_schema_tolerance (content : PyStr) (c : PyStr) (hc : c ∈ FIELDS)
    (hmiss : c ∉ (csvParse content).headD []) :
    ∀ d ∈ load_records content,
      dictLookup d c = none ∧ dictGet d c (some []) = some [] := by
  intro d hd
  unfold load_records at hd
  rcases hp : csvParse content with _ | ⟨header, rest⟩
  · rw [hp] at hd
    simp at hd
  · rw [hp] at hd
    simp only at hd
    obtain ⟨r, _, rfl⟩ := List.mem_map.mp hd
    rw [hp] at hmiss
    simp only [List.headD_cons] at hmiss
    have hl := dictReaderRow_lookup_notin header r c hmiss
    exact ⟨hl, by simp [dictGet, hl]⟩

/-- Witness for C7: a concrete file whose header lacks the password column
loads successfully, and the loaded record lacks the password key, which reads
as the empty string through the get default. -/
theorem c7_witness :
    dictLookup [(strB "full_name", some (strB "ann")),
      (strB "username", some (strB "Ann.X"))] (strB "password") = none ∧
    dictGet [(strB "full_name", some (strB "ann")),
      (strB "username", some (strB "Ann.X"))] (strB "password") (some []) = some [] :=
  c7_schema_tolerance (strB "full_name,username\r\nann,Ann.X\r\n") (strB "password")
    (by decide) (by decide)
    [(strB "full_name", some (strB "ann")), (strB "username", some (strB "Ann.X"))]
    (by decide)

/- Helper lemmas for the CF_HTML container builder (claim C2). -/

theorem startsWithAux_self : ∀ (x y : PyStr), startsWithAux x (x ++ y) = true := by
  intro x
  induction x with
  | nil => intro y; rfl
  | cons c t ih => intro y; simp [startsWithAux, ih]

theorem startsWithAux_append_left : ∀ (needle a b : PyStr),
    needle.length ≤ a.length →
    startsWithAux needle (a ++ b) = startsWithAux needle a := by
  intro needle
  induction needle with
  | nil => intro a b _; rfl
  | cons n ns ih =>
    intro a b hlen
    cases a with
    | nil => simp at hlen
    | cons x a2 =>
      simp only [List.cons_append, startsWithAux]
      rw [show a2.append b = a2 ++ b from rfl,
        ih a2 b (by simp only [List.length_cons] at hlen; omega)]

theorem startsWithAux_append_drop : ∀ (a needle b : PyStr),
    a.length ≤ needle.length → startsWithAux needle (a ++ b) = true →
    startsWithAux (needle.drop a.length) b = true := by
  intro a
  induction a with
  | nil => intro needle b _ h; simpa using h
  | cons x a2 ih =>
    intro needle b hlen h
    cases needle with
    | nil => simp at hlen
    | cons n ns =>
      simp only [List.cons_append, startsWithAux, Bool.and_eq_true] at h
      simp only [List.length_cons, List.drop_succ_cons]
      exact ih ns b (by simp only [List.length_cons] at hlen; omega) h.2

theorem containsSub_false_drop {needle : PyStr} (hne : needle ≠ []) :
    ∀ {hay : PyStr}, containsSub hay needle = false →
    ∀ q, startsWithAux needle (hay.drop q) = false := by
  intro hay
  induction hay with
  | nil =>
    intro _ q
    simp only [List.drop_nil]
    cases needle with
    | nil => exact absurd rfl hne
    | cons n ns => rfl
  | cons c t ih =>
    intro h q
    simp only [containsSub, pyStartsWith, Bool.or_eq_false_iff] at h
    cases q with
    | zero => exact h.1
    | succ q2 => exact ih h.2 q2

theorem bfindAux_eq (needle : PyStr) :
    ∀ (hay : PyStr) (i j : Nat),
    (∀ p, p < j → startsWithAux needle (hay.drop p) = false) →
    startsWithAux needle (hay.drop j) = true →
    bfindAux hay needle i = ((i + j : Nat) : Int) := by
  intro hay
  induction hay with
  | nil =>
    intro i j hlt hj
    simp only [List.drop_nil] at hj
    cases needle with
    | cons n ns => simp [startsWithAux] at hj
    | nil =>
      have hj0 : j = 0 := by
        by_contra h0
        have := hlt 0 (Nat.pos_of_ne_zero h0)
        simp [List.drop_nil, startsWithAux] at this
      subst hj0
      simp [bfindAux]
  | cons c t ih =>
    intro i j hlt hj
    cases j with
    | zero =>
      have hsw : pyStartsWith (c :: t) needle = true := by
        simpa [pyStartsWith] using hj
      simp [bfindAux, hsw]
    | succ j2 =>
      have hsw : pyStartsWith (c :: t) needle = false := by
        have := hlt 0 (Nat.succ_pos j2)
        simpa [pyStartsWith] using this
      simp only [bfindAux, hsw, Bool.false_eq_true, if_false]
      rw [ih (i + 1) j2 (fun p hp => hlt (p + 1) (Nat.succ_lt_succ hp))
        (by simpa using hj)]
      exact congrArg _ (by omega)

theorem bfind_start_marker (X : PyStr) :
    bfind (strB "<html><body><!--StartFragment-->" ++ X) START_FRAGMENT_MARKER =
      ((12 : Nat) : Int) := rfl

theorem bfind_end_marker (F : PyStr)
    (hF : containsSub F END_FRAGMENT_MARKER = false) :
    bfind (strB "<html><body><!--StartFragment-->" ++
        (F ++ strB "<!--EndFragment--></body></html>")) END_FRAGMENT_MARKER =
      ((32 + F.length : Nat) : Int) := by
  show bfindAux _ END_FRAGMENT_MARKER 0 = _
  rw [bfindAux_eq END_FRAGMENT_MARKER _ 0 (32 + F.length) ?hlt ?hj]
  · simp
  case hj =>
    have hdr : (strB "<html><body><!--StartFragment-->" ++
        (F ++ strB "<!--EndFragment--></body></html>")).drop (32 + F.length) =
        strB "<!--EndFragment--></body></html>" := by
      rw [List.drop_append_eq_append_drop,
        List.drop_eq_nil_of_le
          (by rw [show (strB "<html><body><!--StartFragment-->").length = 32 from rfl]; omega),
        List.nil_append,
        show (strB "<html><body><!--StartFragment-->").length = 32 from rfl,
        show 32 + F.length - 32 = F.length from by omega,
        List.drop_append_eq_append_drop,
        List.drop_eq_nil_of_le (Nat.le_refl F.length),
        List.nil_append, Nat.sub_self, List.drop_zero]
    rw [hdr,
      show strB "<!--EndFragment--></body></html>" =
        END_FRAGMENT_MARKER ++ strB "</body></html>" from rfl]
    exact startsWithAux_self _ _
  case hlt =>
    intro p hp
    by_cases hp32 : p < 32
    · interval_cases p <;> rfl
    · have hq : p - 32 < F.length := by omega
      have hdr : (strB "<html><body><!--StartFragment-->" ++
          (F ++ strB "<!--EndFragment--></body></html>")).drop p =
          F.drop (p - 32) ++ strB "<!--EndFragment--></body></html>" := by
        rw [List.drop_append_eq_append_drop,
          List.drop_eq_nil_of_le
            (by rw [show (strB "<html><body><!--StartFragment-->").length = 32 from rfl]; omega),
          List.nil_append,
          show (strB "<html><body><!--StartFragment-->").length = 32 from rfl,
          List.drop_append_eq_append_drop,
          Nat.sub_eq_zero_of_le (Nat.le_of_lt hq), List.drop_zero]
      rw [hdr]
      rcases Bool.eq_false_or_eq_true (startsWithAux END_FRAGMENT_MARKER
        (F.drop (p - 32) ++ strB "<!--EndFragment--></body></html>")) with hsw | hsw
      swap
      · exact hsw
      · exfalso
        have hklen : (F.drop (p - 32)).length = F.length - (p - 32) :=
          List.length_drop _ _
        by_cases hk18 : 18 ≤ (F.drop (p - 32)).length
        · rw [startsWithAux_append_left END_FRAGMENT_MARKER (F.drop (p - 32))
            (strB "<!--EndFragment--></body></html>")
            (by rw [show END_FRAGMENT_MARKER.length = 18 from rfl]; omega)] at hsw
          have hfalse := containsSub_false_drop (by decide) hF (p - 32)
          simp [hfalse] at hsw
        · have hkle : (F.drop (p - 32)).length ≤ END_FRAGMENT_MARKER.length := by
            rw [show END_FRAGMENT_MARKER.length = 18 from rfl]
            omega
          have h2 := startsWithAux_append_drop (F.drop (p - 32)) END_FRAGMENT_MARKER
            _ hkle hsw
          rw [show strB "<!--EndFragment--></body></html>" =
            END_FRAGMENT_MARKER ++ strB "</body></html>" from rfl] at h2
          rw [startsWithAux_append_left
            (END_FRAGMENT_MARKER.drop (F.drop (p - 32)).length) END_FRAGMENT_MARKER
            (strB "</body></html>")
            (by rw [List.length_drop]; omega)] at h2
          have hdf : ∀ kk, kk < 18 → kk ≠ 0 →
              startsWithAux (END_FRAGMENT_MARKER.drop kk) END_FRAGMENT_MARKER = false := by
            decide
          have hz := hdf (F.length - (p - 32)) (by omega) (by omega)
          simp [hz] at h2

theorem natDecimalAux_length_le : ∀ (fuel n k : Nat), 1 ≤ k → n < 10 ^ k →
    n < fuel → (natDecimalAux fuel n).length ≤ k := by
  intro fuel
  induction fuel with
  | zero => intro n k _ _ hn; omega
  | succ f ih =>
    intro n k hk hnk hn
    by_cases h10 : n < 10
    · simp only [natDecimalAux, h10, if_true, List.length_cons, List.length_nil]
      omega
    · simp only [natDecimalAux, h10, if_false, List.length_append, List.length_cons,
        List.length_nil]
      have hk2 : 2 ≤ k := by
        by_contra hcon
        have : k = 1 := by omega
        subst this
        simp at hnk
        omega
      have hdiv : n / 10 < 10 ^ (k - 1) := by
        have h1 : n < 10 ^ (k - 1) * 10 := by
          have : 10 ^ (k - 1) * 10 = 10 ^ k := by
            rw [← Nat.pow_succ]
            congr 1
            omega
          omega
        omega
      have hfuel : n / 10 < f := by
        have : n / 10 < n := Nat.div_lt_self (by omega) (by omega)
        omega
      have := ih (n / 10) (k - 1) (by omega) hdiv hfuel
      omega

theorem fmt8_length {n : Nat} (hn : n < 10 ^ 8) : (fmt8 n).length = 8 := by
  have hle : (natDecimal n).length ≤ 8 :=
    natDecimalAux_length_le (n + 1) n 8 (by omega) hn (by omega)
  simp only [fmt8, List.length_append, List.length_replicate]
  omega

theorem cfHeader_length {a b c d : Nat} (ha : a < 10 ^ 8) (hb : b < 10 ^ 8)
    (hc : c < 10 ^ 8) (hd : d < 10 ^ 8) : (cfHeader a b c d).length = 97 := by
  have l1 : (strB "Version:0.9\r\nStartHTML:").length = 23 := rfl
  have l2 : (strB "\r\nEndHTML:").length = 10 := rfl
  have l3 : (strB "\r\nStartFragment:").length = 16 := rfl
  have l4 : (strB "\r\nEndFragment:").length = 14 := rfl
  have l5 : (strB "\r\n").length = 2 := rfl
  simp only [cfHeader, List.length_append, l1, l2, l3, l4, l5,
    fmt8_length ha, fmt8_length hb, fmt8_length hc, fmt8_length hd]

theorem pySlice_middle (pre mid post : PyStr) (a b : Nat)
    (hpre : pre.length = a) (hb : b = a + mid.length) :
    pySlice (pre ++ (mid ++ post)) a b = mid := by
  unfold pySlice
  rw [List.take_append_eq_append_take,
    List.take_of_length_le (by omega),
    hpre, hb,
    show a + mid.length - a = mid.length from by omega,
    List.take_left mid post, ← hpre,
    List.drop_left pre mid]

theorem pySlice_suffix (pre mid : PyStr) (a b : Nat)
    (hpre : pre.length = a) (hb : b = a + mid.length) :
    pySlice (pre ++ mid) a b = mid := by
  unfold pySlice
  rw [List.take_append_eq_append_take,
    List.take_of_length_le (by omega), hpre, hb,
    show a + mid.length - a = mid.length from by omega,
    List.take_of_length_le (Nat.le_refl _), ← hpre,
    List.drop_left pre mid]

/-- Claim C2 (counterexample): for the fragment consisting of the end-fragment
sentinel itself, bytes.find locates the sentinel inside the fragment, so the
StartFragment..EndFragment slice of the container is empty and does not
reproduce the fragment bytes. -/
theorem c2_counterexample :
    pySlice (make_cf_html_of_str (strB "<!--EndFragment-->")).container
        (make_cf_html_of_str (strB "<!--EndFragment-->")).startFragment
        (make_cf_html_of_str (strB "<!--EndFragment-->")).endFragment ≠
      utf8Encode (strB "<!--EndFragment-->") := by
  decide

/-- Claim C2 (amended): for every fragment string whose UTF-8 bytes do not
contain the end-fragment sentinel and whose container stays below the 10^8
bytes that the %08d offset fields can address, the header offsets slice the
container back into exactly the document skeleton bytes (StartHTML..EndHTML)
and the fragment bytes (StartFragment..EndFragment), with all offsets counted
in bytes of the body encoding from the start of the entire container. -/
theorem c2_container_offsets (fragment : PyStr)
    (hnoend : containsSub (utf8Encode fragment) END_FRAGMENT_MARKER = false)
    (hsize : (utf8Encode fragment).length + 162 ≤ 10 ^ 8) :
    pySlice (make_cf_html_of_str fragment).container
        (make_cf_html_of_str fragment).startHtml
        (make_cf_html_of_str fragment).endHtml =
      strB "<html><body>" ++ START_FRAGMENT_MARKER ++ utf8Encode fragment ++
        END_FRAGMENT_MARKER ++ strB "</body></html>" ∧
    pySlice (make_cf_html_of_str fragment).container
        (make_cf_html_of_str fragment).startFragment
        (make_cf_html_of_str fragment).endFragment = utf8Encode fragment := by
  have hbody : strB "<html><body>" ++ START_FRAGMENT_MARKER ++ utf8Encode fragment ++
      END_FRAGMENT_MARKER ++ strB "</body></html>" =
      strB "<html><body><!--StartFragment-->" ++
        (utf8Encode fragment ++ strB "<!--EndFragment--></body></html>") := by
    rw [show strB "<html><body><!--StartFragment-->" =
        strB "<html><body>" ++ START_FRAGMENT_MARKER from rfl,
      show strB "<!--EndFragment--></body></html>" =
        END_FRAGMENT_MARKER ++ strB "</body></html>" from rfl]
    simp [List.append_assoc]
  have hblen : (strB "<html><body><!--StartFragment-->" ++
      (utf8Encode fragment ++ strB "<!--EndFragment--></body></html>")).length =
      64 + (utf8Encode fragment).length := by
    simp only [List.length_append,
      show (strB "<html><body><!--StartFragment-->").length = 32 from rfl,
      show (strB "<!--EndFragment--></body></html>").length = 32 from rfl]
    omega
  simp only [make_cf_html_of_str, make_cf_html, hbody,
    show (cfHeader 0 0 0 0).length = 97 from rfl,
    bfind_start_marker, bfind_end_marker (utf8Encode fragment) hnoend,
    Int.toNat_natCast,
    show START_FRAGMENT_MARKER.length = 20 from rfl, hblen]
  have hA : 97 < 10 ^ 8 := by omega
  have hB : 97 + (64 + (utf8Encode fragment).length) < 10 ^ 8 := by omega
  have hC : 97 + 12 + 20 < 10 ^ 8 := by omega
  have hD : 97 + (32 + (utf8Encode fragment).length) < 10 ^ 8 := by omega
  constructor
  · exact pySlice_suffix _ _ _ _ (cfHeader_length hA hB hC hD) (by rw [hblen])
  · rw [show cfHeader 97 (97 + (64 + (utf8Encode fragment).length)) (97 + 12 + 20)
          (97 + (32 + (utf8Encode fragment).length)) ++
        (strB "<html><body><!--StartFragment-->" ++
          (utf8Encode fragment ++ strB "<!--EndFragment--></body></html>")) =
        (cfHeader 97 (97 + (64 + (utf8Encode fragment).length)) (97 + 12 + 20)
          (97 + (32 + (utf8Encode fragment).length)) ++
          strB "<html><body><!--StartFragment-->") ++
        (utf8Encode fragment ++ strB "<!--EndFragment--></body></html>") from
      (List.append_assoc _ _ _).symm]
    apply pySlice_middle
    · rw [List.length_append, cfHeader_length hA hB hC hD,
        show (strB "<html><body><!--StartFragment-->").length = 32 from rfl]
    · omega

/-- Witness for C2: a concrete small fragment with markup satisfies both
hypotheses and both slice equations. -/
theorem c2_witness :
    (containsSub (utf8Encode (strB "<b>hi</b><br/>")) END_FRAGMENT_MARKER = false ∧
      (utf8Encode (strB "<b>hi</b><br/>")).length + 162 ≤ 10 ^ 8) ∧
    pySlice (make_cf_html_of_str (strB "<b>hi</b><br/>")).container
        (make_cf_html_of_str (strB "<b>hi</b><br/>")).startHtml
        (make_cf_html_of_str (strB "<b>hi</b><br/>")).endHtml =
      strB "<html><body>" ++ START_FRAGMENT_MARKER ++ utf8Encode (strB "<b>hi</b><br/>") ++
        END_FRAGMENT_MARKER ++ strB "</body></html>" ∧
    pySlice (make_cf_html_of_str (strB "<b>hi</b><br/>")).container
        (make_cf_html_of_str (strB "<b>hi</b><br/>")).startFragment
        (make_cf_html_of_str (strB "<b>hi</b><br/>")).endFragment =
      utf8Encode (strB "<b>hi</b><br/>") :=
  ⟨⟨by decide, by decide⟩,
   c2_container_offsets (strB "<b>hi</b><br/>") (by decide) (by decide)⟩
